import Mathlib

/-!
# Trade lifecycle server: a shallow embedding of `server.js`

The server keeps a collection of trades in a document store, creates a trade on
`POST /trades/new`, resolves it after its expiry through `processTradeOutcome`,
and pushes `NEW_TRADE` and `TRADE_COMPLETED` messages to every open WebSocket
client through `broadcast`.

Everything the environment decides is an explicit argument: the parsed request
body, the identifier the store driver assigns, the clock, the random draw, the
set of WebSocket clients at the moment of a broadcast, and whether a store
operation succeeds. A handler run is one step: the part of a handler after its
`await` on the store runs together with the store operation it waited for.
-/

namespace TradeApi

/-! ## Values of a parsed JSON body -/

/-- A property value of the parsed request body `req.body`. `undefined` is what
destructuring yields for a key the body does not have. An object is given by
the value of its `_id` property (`undefined` when it has none), the one
property of an object that the schema casters read. An array carries no data,
as the casters reject every array. -/
inductive JVal where
  | undefined
  | null
  | bool (b : Bool)
  | num (n : Rat)
  | str (s : String)
  | array
  | object (idProp : JVal)
  deriving DecidableEq, Repr

/-- The parsed request body: its properties, looked up by key. -/
abbrev Body := List (String × JVal)

/-- Property access `body[key]`: `undefined` when the key is not there. -/
def Body.get (body : Body) (key : String) : JVal :=
  match body.lookup key with
  | some v => v
  | none => JVal.undefined

/-- The two language-level conversions between strings and numbers the schema
casters call, taken as given: `toNumber s` is `Number(s)` (`none` for `NaN`),
`numToString n` is `n.toString()`. -/
structure JsConv where
  toNumber : String → Option Rat
  numToString : Rat → String

/-! ## The Trade schema (server.js 23-31) -/

/-- A persisted trade document. Dates are milliseconds since the epoch;
`outcome := none` is `null`, `completedAt := none` is an absent field. -/
structure TradeDoc where
  _id : Nat
  amount : Rat
  direction : String
  expiryTime : Rat
  status : String
  outcome : Option String
  createdAt : Nat
  completedAt : Option Nat
  deriving DecidableEq, Repr

/-- Result of casting a raw value to the type a schema path declares. -/
inductive Cast (α : Type) where
  | value (v : α)
  | empty
  | castError
  deriving DecidableEq, Repr

/-- The value the `Number` caster works on:
`value && typeof value._id !== 'undefined' ? value._id : value`, the `_id` of
an object that has one and the value itself otherwise. -/
def unwrapId : JVal → JVal
  | JVal.object idProp => if idProp = JVal.undefined then JVal.object idProp else idProp
  | v => v

/-- Helper `castNumber(val)` of Mongoose 5 and later: `null` and `undefined`
pass through, the empty string becomes `null`, other strings and booleans go
through `Number(..)` and fail when that is `NaN`, numbers are kept, arrays and
objects are rejected. -/
def castNumberValue (cv : JsConv) : JVal → Cast Rat
  | JVal.undefined => Cast.empty
  | JVal.null => Cast.empty
  | JVal.bool b => Cast.value (if b then 1 else 0)
  | JVal.num n => Cast.value n
  | JVal.str s =>
    if s = "" then Cast.empty
    else match cv.toNumber s with
      | some n => Cast.value n
      | none => Cast.castError
  | JVal.array => Cast.castError
  | JVal.object _ => Cast.castError

/-- Caster of a `Number` path: an object that has an `_id` stands for that
`_id`, and the result is cast by `castNumber(val)`. -/
def castNumber (cv : JsConv) (value : JVal) : Cast Rat :=
  castNumberValue cv (unwrapId value)

/-- Caster of a `String` path: `null` and `undefined` pass through, an object
whose `_id` is a non-empty string is cast to that string, strings are kept,
numbers and booleans are rendered with `toString()`, arrays and all other
objects are rejected. -/
def castString (cv : JsConv) : JVal → Cast String
  | JVal.undefined => Cast.empty
  | JVal.null => Cast.empty
  | JVal.bool b => Cast.value (if b then "true" else "false")
  | JVal.num n => Cast.value (cv.numToString n)
  | JVal.str s => Cast.value s
  | JVal.array => Cast.castError
  | JVal.object (JVal.str s) => if s = "" then Cast.castError else Cast.value s
  | JVal.object _ => Cast.castError

/-- The document `new Trade({ amount, direction, expiryTime })` builds, before
validation: the three given paths cast to their schema types, the defaults of
`status`, `outcome` and `createdAt` applied, `completedAt` left out. -/
structure Draft where
  _id : Nat
  amount : Cast Rat
  direction : Cast String
  expiryTime : Cast Rat
  status : String
  outcome : Option String
  createdAt : Nat
  completedAt : Option Nat
  deriving DecidableEq, Repr

/-- Constructor `new Trade({ amount, direction, expiryTime })` (server.js 58).
`newId` is the identifier the driver generates, `now` is `Date.now()`. -/
def Trade.new (cv : JsConv) (amount direction expiryTime : JVal) (newId now : Nat) : Draft :=
  { _id := newId
    amount := castNumber cv amount
    direction := castString cv direction
    expiryTime := castNumber cv expiryTime
    status := "live"
    outcome := none
    createdAt := now
    completedAt := none }

/-- The `required: true` validator of a `Number` path: a number must be there. -/
def requiredNumber : Cast Rat → Option Rat
  | Cast.value n => some n
  | Cast.empty => none
  | Cast.castError => none

/-- The `required: true` validator of a `String` path: a string of non-zero
length must be there. -/
def requiredString : Cast String → Option String
  | Cast.value s => if s.length = 0 then none else some s
  | Cast.empty => none
  | Cast.castError => none

/-- Schema validation run by `save()`: every required path must hold a value of
its type; a path that failed to cast fails validation. -/
def validate (d : Draft) : Option TradeDoc :=
  match requiredNumber d.amount, requiredString d.direction, requiredNumber d.expiryTime with
  | some a, some dir, some e =>
    some { _id := d._id, amount := a, direction := dir, expiryTime := e,
           status := d.status, outcome := d.outcome, createdAt := d.createdAt,
           completedAt := d.completedAt }
  | _, _, _ => none

/-- The error a rejected store operation carries. -/
inductive StoreError where
  | validationError
  | persistenceError
  deriving DecidableEq, Repr

/-- Look a document up by `_id`. -/
def findById (store : List TradeDoc) (id : Nat) : Option TradeDoc :=
  store.find? (fun t => t._id = id)

/-- Method `newTrade.save()` (server.js 59): validate, then insert. The insert
fails when the store is unavailable (`dbOk = false`) or the `_id` is taken (the
store keeps `_id` unique). A failed save leaves the collection as it was. -/
def save (store : List TradeDoc) (d : Draft) (dbOk : Bool) :
    Except StoreError (List TradeDoc × TradeDoc) :=
  match validate d with
  | none => Except.error StoreError.validationError
  | some t =>
    if dbOk = true ∧ findById store t._id = none then Except.ok (store ++ [t], t)
    else Except.error StoreError.persistenceError

/-! ## WebSocket broadcast (server.js 44-50) -/

/-- A WebSocket client of `wss.clients`. -/
structure Client where
  id : Nat
  readyState : Nat
  deriving DecidableEq, Repr

/-- Constant `WebSocket.OPEN`. -/
def WebSocket.OPEN : Nat := 1

/-- The object handed to `broadcast`: `{ type, trade }`. `trade := none` is
`null`, which is what `findByIdAndUpdate` yields for an unknown `_id`. -/
structure Event where
  type : String
  trade : Option TradeDoc
  deriving DecidableEq, Repr

/-- Function `broadcast(data)`: walk `wss.clients` and, for each client whose
`readyState` is `WebSocket.OPEN`, call `client.send(JSON.stringify(data))`.
The sends are appended to the log `sent`, oldest first; a log entry records the
receiving client and the object that was serialised. -/
def broadcast (data : Event) (clients : List Client) (sent : List (Client × Event)) :
    List (Client × Event) :=
  clients.foldl
    (fun log client =>
      if client.readyState = WebSocket.OPEN then log ++ [(client, data)] else log)
    sent

/-! ## Server state and responses -/

/-- A call `processTradeOutcome(tradeId, expiryTime)` that is suspended on its
`setTimeout` promise (server.js 79). `expiryTime` is the raw body value. -/
structure Timer where
  tradeId : Nat
  expiryTime : JVal
  deriving DecidableEq, Repr

/-- The state the server acts on: the Trade collection, the suspended
`processTradeOutcome` calls, and two histories kept oldest first, the objects
passed to `broadcast` and the `client.send` calls made. -/
structure State where
  store : List TradeDoc
  timers : List Timer
  published : List Event
  sent : List (Client × Event)
  deriving DecidableEq, Repr

/-- The server right after start, with an empty collection. -/
def State.init : State :=
  { store := [], timers := [], published := [], sent := [] }

/-- JSON body of an HTTP response. -/
inductive ResBody where
  | messageTrade (message : String) (trade : TradeDoc)
  | messageError (message : String) (error : StoreError)
  | message (message : String)
  | trades (trades : List TradeDoc)
  | data (data : List TradeDoc)
  deriving DecidableEq, Repr

/-- An HTTP response: status code and JSON body. -/
structure Response where
  status : Nat
  body : ResBody
  deriving DecidableEq, Repr

/-! ## processTradeOutcome (server.js 76-100) -/

/-- The part of `processTradeOutcome(tradeId, expiryTime)` that runs inside the
caller: the call suspends on the timeout promise and returns. -/
def processTradeOutcome (timers : List Timer) (tradeId : Nat) (expiryTime : JVal) :
    List Timer :=
  timers ++ [{ tradeId := tradeId, expiryTime := expiryTime }]

/-- The update document of server.js 88-90. -/
structure Update where
  status : String
  outcome : String
  completedAt : Nat
  deriving DecidableEq, Repr

/-- Apply an update document to a trade. -/
def applyUpdate (t : TradeDoc) (u : Update) : TradeDoc :=
  { t with status := u.status, outcome := some u.outcome, completedAt := some u.completedAt }

/-- Query `Trade.findByIdAndUpdate(id, update, { new: true })`: the document
with that `_id`, whatever its status, is updated in place and returned as
updated; `null` is returned and nothing changes when there is no such
document. -/
def findByIdAndUpdate : List TradeDoc → Nat → Update → List TradeDoc × Option TradeDoc
  | [], _, _ => ([], none)
  | t :: ts, id, u =>
    if t._id = id then (applyUpdate t u :: ts, some (applyUpdate t u))
    else ((findByIdAndUpdate ts id u).1.cons t, (findByIdAndUpdate ts id u).2)

/-- The number literal `0.5`. -/
def half : Rat := { num := 1, den := 2, den_nz := by decide, reduced := by decide }

/-- The body of `processTradeOutcome` after the wait (server.js 82-99).
`random` is the value of `Math.random()`, `now` the clock read by `new Date()`,
`dbOk = false` makes the store update throw, which the `catch` logs. -/
def resolveTrade (s : State) (tradeId : Nat) (random : Rat) (now : Nat) (dbOk : Bool)
    (clients : List Client) : State :=
  let isWin := decide (random < half)
  let outcome := if isWin then "won" else "lost"
  let completedAt := now
  if dbOk then
    let r := findByIdAndUpdate s.store tradeId
      { status := "completed", outcome := outcome, completedAt := completedAt }
    let data : Event := { type := "TRADE_COMPLETED", trade := r.2 }
    { s with store := r.1
             published := s.published ++ [data]
             sent := broadcast data clients s.sent }
  else s

/-- The timeout of the `k`-th suspended call elapses: the call leaves the
suspended set and its remaining body runs. Nothing happens for an index that
names no suspended call. -/
def fireTimer (s : State) (k : Nat) (random : Rat) (now : Nat) (dbOk : Bool)
    (clients : List Client) : State :=
  match s.timers.get? k with
  | none => s
  | some tm =>
    resolveTrade { s with timers := s.timers.eraseIdx k } tm.tradeId random now dbOk clients

/-! ## POST /trades/new (server.js 53-73) -/

/-- Handler of `POST /trades/new`. Returns the next state and the response. -/
def postTradesNew (cv : JsConv) (s : State) (body : Body) (newId now : Nat) (dbOk : Bool)
    (clients : List Client) : State × Response :=
  let amount := body.get "amount"
  let direction := body.get "direction"
  let expiryTime := body.get "expiryTime"
  let newTrade := Trade.new cv amount direction expiryTime newId now
  match save s.store newTrade dbOk with
  | Except.error error =>
    (s, { status := 500, body := ResBody.messageError "Failed to place trade" error })
  | Except.ok (store, saved) =>
    let data : Event := { type := "NEW_TRADE", trade := some saved }
    ({ store := store
       timers := processTradeOutcome s.timers saved._id expiryTime
       published := s.published ++ [data]
       sent := broadcast data clients s.sent },
     { status := 201, body := ResBody.messageTrade "Trade placed successfully" saved })

/-! ## GET /trades/live and GET /trades/logs (server.js 103-127) -/

/-- Sort order `{ createdAt: -1 }`: later creation first. -/
def createdAtDesc (a b : TradeDoc) : Prop := b.createdAt ≤ a.createdAt

instance : DecidableRel createdAtDesc := fun a b => Nat.decLe b.createdAt a.createdAt

instance : IsTotal TradeDoc createdAtDesc := ⟨fun a b => Nat.le_total b.createdAt a.createdAt⟩

instance : IsTrans TradeDoc createdAtDesc :=
  ⟨fun _ _ _ hab hbc => Nat.le_trans hbc hab⟩

/-- Query `Trade.find({ status }).sort({ createdAt: -1 })`; `none` when the
store is unavailable and the query throws. -/
def findSorted (store : List TradeDoc) (status : String) (dbOk : Bool) :
    Option (List TradeDoc) :=
  if dbOk then some ((store.filter (fun t => t.status = status)).insertionSort createdAtDesc)
  else none

/-- Handler of `GET /trades/live`. -/
def getTradesLive (store : List TradeDoc) (dbOk : Bool) : Response :=
  match findSorted store "live" dbOk with
  | none =>
    { status := 500
      body := ResBody.messageError "Failed to fetch live trades" StoreError.persistenceError }
  | some liveTrades =>
    if liveTrades.length = 0 then
      { status := 404, body := ResBody.message "No live trades found" }
    else { status := 200, body := ResBody.trades liveTrades }

/-- Handler of `GET /trades/logs`. -/
def getTradesLogs (store : List TradeDoc) (dbOk : Bool) : Response :=
  match findSorted store "completed" dbOk with
  | none =>
    { status := 500
      body := ResBody.messageError "Failed to fetch trade logs" StoreError.persistenceError }
  | some tradeLogs => { status := 200, body := ResBody.data tradeLogs }

/-- The trades a response carries. -/
def Response.tradeList (r : Response) : List TradeDoc :=
  match r.body with
  | ResBody.trades l => l
  | ResBody.data l => l
  | ResBody.messageTrade _ t => [t]
  | _ => []

/-! ## Runs of the server -/

/-- One thing that happens to the server: a creation request arrives, or the
timeout of a suspended resolution elapses. Each carries what the environment
contributes at that moment. -/
inductive Action where
  | post (body : Body) (newId now : Nat) (dbOk : Bool) (clients : List Client)
  | fire (k : Nat) (random : Rat) (now : Nat) (dbOk : Bool) (clients : List Client)
  deriving DecidableEq, Repr

/-- The state after one action. -/
def step (cv : JsConv) (s : State) : Action → State
  | Action.post body newId now dbOk clients => (postTradesNew cv s body newId now dbOk clients).1
  | Action.fire k random now dbOk clients => fireTimer s k random now dbOk clients

/-- The state after a sequence of actions. -/
def run (cv : JsConv) (s : State) (actions : List Action) : State :=
  actions.foldl (step cv) s

/-! ## Sample data -/

/-- A live trade as `POST /trades/new` persists it. -/
def sampleTrade : TradeDoc :=
  { _id := 1, amount := 100, direction := "up", expiryTime := 2, status := "live",
    outcome := none, createdAt := 1000, completedAt := none }

/-- The server after the creation of `sampleTrade` with no client connected. -/
def sampleState : State :=
  { store := [sampleTrade]
    timers := [{ tradeId := 1, expiryTime := JVal.num 2 }]
    published := [{ type := "NEW_TRADE", trade := some sampleTrade }]
    sent := [] }

/-- The trade `sampleTrade` after a resolution. -/
def sampleCompleted (outcome : String) (completedAt : Nat) : TradeDoc :=
  { sampleTrade with status := "completed", outcome := some outcome,
                     completedAt := some completedAt }

/-- A live trade whose direction is neither up nor down and whose expiryTime is
negative. -/
def sidewaysTrade : TradeDoc :=
  { _id := 7, amount := 100, direction := "sideways", expiryTime := -5, status := "live",
    outcome := none, createdAt := 1000, completedAt := none }

/-- The number 0.75, a value of `Math.random()` that loses. -/
def threeQuarters : Rat := { num := 3, den := 4, den_nz := by decide, reduced := by decide }

/-- A live trade created from a body whose amount is a boolean. -/
def booleanAmountTrade : TradeDoc :=
  { _id := 7, amount := 1, direction := "up", expiryTime := 2, status := "live",
    outcome := none, createdAt := 1000, completedAt := none }

/-- A live trade created from a body whose amount is the string 12. -/
def stringAmountTrade : TradeDoc :=
  { _id := 7, amount := 12, direction := "up", expiryTime := 2, status := "live",
    outcome := none, createdAt := 1000, completedAt := none }

/-- A live trade created from a body whose amount and direction are objects
with an `_id`. -/
def objectFieldsTrade : TradeDoc :=
  { _id := 7, amount := 100, direction := "up", expiryTime := 2, status := "live",
    outcome := none, createdAt := 1000, completedAt := none }

/-- A client set with one open connection and one closed connection. -/
def sampleClients : List Client := [{ id := 1, readyState := 1 }, { id := 2, readyState := 3 }]

/-- A run: `sampleTrade` is created while `sampleClients` are connected, then
its suspended resolution fires with the draw 0 at clock 5000. -/
def sampleRun : List Action :=
  [Action.post [("amount", JVal.num 100), ("direction", JVal.str "up"),
                ("expiryTime", JVal.num 2)] 1 1000 true sampleClients,
   Action.fire 0 0 5000 true sampleClients]

/-- String and number conversions that know the decimal numeral 12 only. -/
def sampleConv : JsConv :=
  { toNumber := fun s => if s = "12" then some 12 else none
    numToString := fun n => if n = 12 then "12" else "" }

/-! ## Reading the histories -/

/-- Identifiers of the trades that the NEW_TRADE events of a history carry. -/
def newTradeIds (l : List Event) : List Nat :=
  l.filterMap (fun e => if e.type = "NEW_TRADE" then e.trade.map (fun t => t._id) else none)

/-- Identifiers of the trades that the TRADE_COMPLETED events of a history carry. -/
def completedIds (l : List Event) : List Nat :=
  l.filterMap (fun e => if e.type = "TRADE_COMPLETED" then e.trade.map (fun t => t._id) else none)

/-- Identifiers of the stored trades. -/
def storeIds (store : List TradeDoc) : List Nat := store.map (fun t => t._id)

/-- Event `b` is not a NEW_TRADE for a trade that event `a` reports completed. -/
def NotNewAfterCompleted (a b : Event) : Prop :=
  ∀ i ∈ completedIds [a], i ∉ newTradeIds [b]

/-- What holds of every state the server reaches from `State.init`. -/
structure Inv (s : State) : Prop where
  timers_stored : ∀ tm ∈ s.timers, tm.tradeId ∈ storeIds s.store
  timers_nodup : (s.timers.map (fun tm => tm.tradeId)).Nodup
  timers_new : ∀ tm ∈ s.timers, tm.tradeId ∈ newTradeIds s.published
  timers_pending : ∀ tm ∈ s.timers, tm.tradeId ∉ completedIds s.published
  completed_stored : ∀ i ∈ completedIds s.published, i ∈ storeIds s.store
  completed_nodup : (completedIds s.published).Nodup
  sent_published : ∀ p ∈ s.sent, p.2 ∈ s.published
  new_first : ∀ (j : Nat) (e : Event), s.published.get? j = some e →
    ∀ i ∈ completedIds [e], i ∈ newTradeIds (s.published.take j)
  no_new_after : s.published.Pairwise NotNewAfterCompleted
  sent_order : s.sent.Pairwise (fun p q => NotNewAfterCompleted p.2 q.2)
  outcome_iff : ∀ t ∈ s.store, (t.outcome ≠ none ↔ t.status = "completed")

/-! ## Facts about the store and the broadcast loop -/

theorem half_eq : half = 1 / 2 := by
  rw [half, Rat.mk_eq_divInt, Rat.divInt_eq_div]
  norm_num

theorem length_zero_eq (d : String) (h : d.length = 0) : d = "" := by
  have h1 : d.data = [] := List.length_eq_zero.1 h
  exact String.ext h1

theorem broadcast_eq (data : Event) (clients : List Client) (sent : List (Client × Event)) :
    broadcast data clients sent =
      sent ++ (clients.filter (fun c => c.readyState = WebSocket.OPEN)).map (fun c => (c, data)) := by
  unfold broadcast
  induction clients generalizing sent with
  | nil => simp
  | cons c cs ih =>
    simp only [List.foldl_cons]
    by_cases h : c.readyState = WebSocket.OPEN
    · simp [h, ih, List.filter_cons]
    · simp [h, ih, List.filter_cons]

theorem findByIdAndUpdate_snd (store : List TradeDoc) (id : Nat) (u : Update) :
    (findByIdAndUpdate store id u).2 = (findById store id).map (fun t => applyUpdate t u) := by
  induction store with
  | nil => simp [findByIdAndUpdate, findById]
  | cons t ts ih =>
    by_cases h : t._id = id
    · simp [findByIdAndUpdate, findById, h]
    · simp only [findById] at ih
      simp [findByIdAndUpdate, findById, h, ih]

theorem findById_findByIdAndUpdate (store : List TradeDoc) (id j : Nat) (u : Update) :
    findById (findByIdAndUpdate store id u).1 j =
      if j = id then (findById store id).map (fun t => applyUpdate t u) else findById store j := by
  induction store with
  | nil => simp [findByIdAndUpdate, findById]
  | cons t ts ih =>
    simp only [findById] at ih
    by_cases h : t._id = id
    · by_cases hj : j = id
      · simp [findByIdAndUpdate, findById, h, hj, applyUpdate]
      · have : ¬ id = j := fun e => hj e.symm
        simp [findByIdAndUpdate, findById, h, hj, applyUpdate, List.find?_cons, this]
    · by_cases hj : j = id
      · subst hj
        simp [findByIdAndUpdate, findById, h, List.find?_cons, ih]
      · by_cases htj : t._id = j
        · simp [findByIdAndUpdate, findById, h, hj, List.find?_cons, htj]
        · simp [findByIdAndUpdate, findById, h, hj, List.find?_cons, htj, ih]

theorem findByIdAndUpdate_ids (store : List TradeDoc) (id : Nat) (u : Update) :
    (findByIdAndUpdate store id u).1.map (fun t => t._id) = store.map (fun t => t._id) := by
  induction store with
  | nil => simp [findByIdAndUpdate]
  | cons t ts ih =>
    by_cases h : t._id = id
    · simp [findByIdAndUpdate, h, applyUpdate]
    · simp [findByIdAndUpdate, h, ih]

theorem mem_findByIdAndUpdate (store : List TradeDoc) (id : Nat) (u : Update) (x : TradeDoc)
    (hx : x ∈ (findByIdAndUpdate store id u).1) :
    x ∈ store ∨ ∃ t ∈ store, t._id = id ∧ x = applyUpdate t u := by
  induction store with
  | nil => simp [findByIdAndUpdate] at hx
  | cons t ts ih =>
    by_cases h : t._id = id
    · simp only [findByIdAndUpdate, h, if_true, List.mem_cons] at hx
      rcases hx with hx | hx
      · exact Or.inr ⟨t, List.mem_cons_self _ _, h, hx⟩
      · exact Or.inl (List.mem_cons_of_mem _ hx)
    · simp only [findByIdAndUpdate, h, if_false, List.mem_cons] at hx
      rcases hx with hx | hx
      · exact Or.inl (hx ▸ List.mem_cons_self _ _)
      · rcases ih hx with h1 | ⟨t0, ht0, hid, he⟩
        · exact Or.inl (List.mem_cons_of_mem _ h1)
        · exact Or.inr ⟨t0, List.mem_cons_of_mem _ ht0, hid, he⟩

theorem findById_isSome_iff (store : List TradeDoc) (id : Nat) :
    (findById store id).isSome = true ↔ id ∈ store.map (fun t => t._id) := by
  unfold findById
  rw [List.find?_isSome]
  simp

theorem findById_some_id {store : List TradeDoc} {id : Nat} {t : TradeDoc}
    (h : findById store id = some t) : t._id = id ∧ t ∈ store := by
  unfold findById at h
  have h1 := List.find?_some h
  have h2 := List.mem_of_find?_eq_some h
  simp at h1
  exact ⟨h1, h2⟩

/-! ## Broadcast -/

/-- C8: `broadcast` appends to the send log one send of the event for every
client whose connection is open, in client order, and nothing else: a client
whose connection is open receives the event once per membership in the client
set, a client whose connection is not open receives nothing, and dropping the
clients that are not open from the set leaves the sends as they are. -/
theorem broadcast_reaches_exactly_open (data : Event) (clients : List Client)
    (sent : List (Client × Event)) :
    broadcast data clients sent =
        sent ++ (clients.filter (fun c => c.readyState = WebSocket.OPEN)).map (fun c => (c, data))
    ∧ (∀ c : Client, c.readyState = WebSocket.OPEN →
        (broadcast data clients sent).count (c, data) = sent.count (c, data) + clients.count c)
    ∧ (∀ (c : Client) (e : Event), c.readyState ≠ WebSocket.OPEN →
        (broadcast data clients sent).count (c, e) = sent.count (c, e))
    ∧ broadcast data clients sent =
        broadcast data (clients.filter (fun c => c.readyState = WebSocket.OPEN)) sent := by
  refine ⟨broadcast_eq data clients sent, ?_, ?_, ?_⟩
  · intro c hc
    rw [broadcast_eq, List.count_append]
    congr 1
    induction clients with
    | nil => simp
    | cons a cs ih =>
      by_cases ha : a.readyState = WebSocket.OPEN
      · by_cases hac : a = c
        · subst hac
          simp [List.filter_cons, ha, List.count_cons, ih]
        · simp [List.filter_cons, ha, hac, List.count_cons, ih]
      · have hac : ¬ a = c := fun h => ha (h ▸ hc)
        simp [List.filter_cons, ha, hac, List.count_cons, ih]
  · intro c e hc
    rw [broadcast_eq, List.count_append]
    have : ((clients.filter (fun c => c.readyState = WebSocket.OPEN)).map
        (fun c => (c, data))).count (c, e) = 0 := by
      apply List.count_eq_zero_of_not_mem
      intro hmem
      rcases List.mem_map.1 hmem with ⟨c0, hc0, he⟩
      have hopen := (List.mem_filter.1 hc0).2
      have : c0 = c := (Prod.mk.inj he).1
      subst this
      exact hc (by simpa using hopen)
    omega
  · rw [broadcast_eq, broadcast_eq, List.filter_filter]
    simp

/-- Witness for C8: the open client of `sampleClients` is sent the event once. -/
theorem broadcast_reaches_exactly_open_witness :
    (broadcast ⟨"NEW_TRADE", some sampleTrade⟩ sampleClients []).count
        ((⟨1, 1⟩ : Client), (⟨"NEW_TRADE", some sampleTrade⟩ : Event))
      = List.count ((⟨1, 1⟩ : Client), (⟨"NEW_TRADE", some sampleTrade⟩ : Event)) []
        + sampleClients.count ⟨1, 1⟩ :=
  (broadcast_reaches_exactly_open ⟨"NEW_TRADE", some sampleTrade⟩ sampleClients []).2.1
    ⟨1, 1⟩ (by decide)

/-! ## Creation -/

/-- C1: a creation request whose amount is a number, whose direction is a
non-empty string (up and down among them) and whose expiryTime is a number
(the positive ones among them), arriving when the store accepts the insert,
persists and returns in a 201 response a trade with status live, outcome null,
no completedAt, and exactly the amount, direction and expiryTime of the
request; the NEW_TRADE event carries that trade and one resolution is suspended
for it. A second body that agrees with the first on amount, direction and
expiryTime gives the same result whatever else it holds. -/
theorem postTradesNew_valid_creates_live (cv : JsConv) (s : State) (body : Body)
    (newId now : Nat) (clients : List Client) (a e : Rat) (d : String)
    (ha : body.get "amount" = JVal.num a)
    (hd : body.get "direction" = JVal.str d) (hdir : d ≠ "")
    (he : body.get "expiryTime" = JVal.num e)
    (hfresh : findById s.store newId = none) :
    ∃ trade : TradeDoc,
      trade = { _id := newId, amount := a, direction := d, expiryTime := e, status := "live",
                outcome := none, createdAt := now, completedAt := none }
      ∧ postTradesNew cv s body newId now true clients =
          ({ store := s.store ++ [trade],
             timers := s.timers ++ [{ tradeId := newId, expiryTime := JVal.num e }],
             published := s.published ++ [{ type := "NEW_TRADE", trade := some trade }],
             sent := broadcast { type := "NEW_TRADE", trade := some trade } clients s.sent },
           { status := 201, body := ResBody.messageTrade "Trade placed successfully" trade })
      ∧ findById (postTradesNew cv s body newId now true clients).1.store newId = some trade
      ∧ ∀ (other : Body) (dbOk : Bool),
          other.get "amount" = body.get "amount" →
          other.get "direction" = body.get "direction" →
          other.get "expiryTime" = body.get "expiryTime" →
          postTradesNew cv s other newId now dbOk clients =
            postTradesNew cv s body newId now dbOk clients := by
  have hlen : ¬ d.length = 0 := fun h => hdir (length_zero_eq d h)
  refine ⟨_, rfl, ?_, ?_, ?_⟩
  · simp only [postTradesNew, ha, hd, he, Trade.new, castNumber, castNumberValue, unwrapId,
      castString, save, validate,
      requiredNumber, requiredString, hlen, if_false, hfresh, and_self, if_true,
      processTradeOutcome]
  · simp only [postTradesNew, ha, hd, he, Trade.new, castNumber, castNumberValue, unwrapId,
      castString, save, validate,
      requiredNumber, requiredString, hlen, if_false, hfresh, and_self, if_true,
      processTradeOutcome]
    simp only [findById] at hfresh ⊢
    rw [List.find?_append, hfresh]
    simp
  · intro other dbOk h1 h2 h3
    simp only [postTradesNew, h1, h2, h3]

/-- Witness for C1: the request body amount 100, direction up, expiryTime 2,
with an extra status property, on the empty store. -/
theorem postTradesNew_valid_creates_live_witness :
    ∃ trade : TradeDoc,
      trade = { _id := 7, amount := 100, direction := "up", expiryTime := 2, status := "live",
                outcome := none, createdAt := 1000, completedAt := none }
      ∧ (postTradesNew ⟨fun _ => none, fun _ => ""⟩ State.init
          [("amount", JVal.num 100), ("direction", JVal.str "up"), ("expiryTime", JVal.num 2),
           ("status", JVal.str "completed")] 7 1000 true [⟨1, 1⟩]).2 =
        { status := 201, body := ResBody.messageTrade "Trade placed successfully" trade } := by
  obtain ⟨trade, h1, h2, _⟩ :=
    postTradesNew_valid_creates_live ⟨fun _ => none, fun _ => ""⟩ State.init
      [("amount", JVal.num 100), ("direction", JVal.str "up"), ("expiryTime", JVal.num 2),
       ("status", JVal.str "completed")] 7 1000 [⟨1, 1⟩] 100 2 "up"
      rfl rfl (by decide) rfl rfl
  exact ⟨trade, h1, congrArg Prod.snd h2⟩

/-- C6: when `save()` rejects, for whatever reason, the handler answers 500 with
the message and the error and leaves the whole state as it was: the store is
unchanged, no NEW_TRADE event is published or sent, and no resolution is
suspended. A request that meets an unavailable store always ends this way. -/
theorem postTradesNew_save_rejects (cv : JsConv) (s : State) (body : Body) (newId now : Nat)
    (dbOk : Bool) (clients : List Client) (error : StoreError)
    (hsave : save s.store (Trade.new cv (body.get "amount") (body.get "direction")
        (body.get "expiryTime") newId now) dbOk = Except.error error) :
    postTradesNew cv s body newId now dbOk clients =
        (s, { status := 500, body := ResBody.messageError "Failed to place trade" error })
    ∧ (postTradesNew cv s body newId now dbOk clients).1.store = s.store
    ∧ (postTradesNew cv s body newId now dbOk clients).1.published = s.published
    ∧ (postTradesNew cv s body newId now dbOk clients).1.sent = s.sent
    ∧ (postTradesNew cv s body newId now dbOk clients).1.timers = s.timers
    ∧ (postTradesNew cv s body newId now dbOk clients).2.status ≠ 201
    ∧ (postTradesNew cv s body newId now false clients).1 = s
    ∧ (postTradesNew cv s body newId now false clients).2.status = 500 := by
  have h : postTradesNew cv s body newId now dbOk clients =
      (s, { status := 500, body := ResBody.messageError "Failed to place trade" error }) := by
    simp only [postTradesNew, hsave]
  have hf : ∃ e, save s.store (Trade.new cv (body.get "amount") (body.get "direction")
      (body.get "expiryTime") newId now) false = Except.error e := by
    unfold save
    cases validate (Trade.new cv (body.get "amount") (body.get "direction")
      (body.get "expiryTime") newId now) with
    | none => exact ⟨_, rfl⟩
    | some t => exact ⟨StoreError.persistenceError, by simp⟩
  obtain ⟨e, he⟩ := hf
  have h2 : postTradesNew cv s body newId now false clients =
      (s, { status := 500, body := ResBody.messageError "Failed to place trade" e }) := by
    simp only [postTradesNew, he]
  rw [h, h2]
  simp

/-- Witness for C6: a valid request that meets an unavailable store. -/
theorem postTradesNew_save_rejects_witness :
    postTradesNew ⟨fun _ => none, fun _ => ""⟩ State.init
        [("amount", JVal.num 100), ("direction", JVal.str "up"), ("expiryTime", JVal.num 2)]
        7 1000 false [⟨1, 1⟩] =
      (State.init, { status := 500
                     body := ResBody.messageError "Failed to place trade"
                       StoreError.persistenceError }) :=
  (postTradesNew_save_rejects ⟨fun _ => none, fun _ => ""⟩ State.init
    [("amount", JVal.num 100), ("direction", JVal.str "up"), ("expiryTime", JVal.num 2)]
    7 1000 false [⟨1, 1⟩] StoreError.persistenceError rfl).1

/-! ## Resolution -/

/-- C2: when the timeout of a suspended resolution elapses for a trade that is
in the store and the store update succeeds, the stored trade has status
completed, outcome won or lost and completedAt set to the clock reading, with
its identifier, amount, direction, expiryTime and createdAt as before; exactly
one TRADE_COMPLETED event is published, it carries that updated record, and it
is what the open clients are sent. -/
theorem fireTimer_completes_trade (s : State) (k : Nat) (tm : Timer) (t : TradeDoc)
    (random : Rat) (now : Nat) (clients : List Client)
    (hk : s.timers.get? k = some tm) (ht : findById s.store tm.tradeId = some t) :
    ∃ updated : TradeDoc,
      findById (fireTimer s k random now true clients).store tm.tradeId = some updated
      ∧ updated.status = "completed"
      ∧ (updated.outcome = some "won" ∨ updated.outcome = some "lost")
      ∧ updated.completedAt = some now
      ∧ updated._id = t._id ∧ updated.amount = t.amount ∧ updated.direction = t.direction
      ∧ updated.expiryTime = t.expiryTime ∧ updated.createdAt = t.createdAt
      ∧ (fireTimer s k random now true clients).published =
          s.published ++ [{ type := "TRADE_COMPLETED", trade := some updated }]
      ∧ (fireTimer s k random now true clients).sent =
          broadcast { type := "TRADE_COMPLETED", trade := some updated } clients s.sent := by
  refine ⟨applyUpdate t ⟨"completed", if decide (random < half) = true then "won" else "lost", now⟩,
    ?_, rfl, ?_, rfl, rfl, rfl, rfl, rfl, rfl, ?_, ?_⟩
  · simp only [fireTimer, hk, resolveTrade, if_true, findById_findByIdAndUpdate, ht, Option.map]
  · by_cases h : random < half
    · left; simp [applyUpdate, h]
    · right; simp [applyUpdate, h]
  · simp only [fireTimer, hk, resolveTrade, if_true, findByIdAndUpdate_snd, ht, Option.map]
  · simp only [fireTimer, hk, resolveTrade, if_true, findByIdAndUpdate_snd, ht, Option.map]

/-- Witness for C2: the suspended resolution of `sampleTrade` fires with the
draw 0 at clock 5000. -/
theorem fireTimer_completes_trade_witness :
    ∃ updated : TradeDoc,
      findById (fireTimer sampleState 0 0 5000 true sampleClients).store 1 = some updated
      ∧ updated.status = "completed"
      ∧ (updated.outcome = some "won" ∨ updated.outcome = some "lost")
      ∧ updated.completedAt = some 5000 := by
  obtain ⟨u, h1, h2, h3, h4, _⟩ :=
    fireTimer_completes_trade sampleState 0 ⟨1, JVal.num 2⟩ sampleTrade 0 5000 sampleClients
      rfl rfl
  exact ⟨u, h1, h2, h3, h4⟩

/-! ## Queries -/

/-- C7: the trades `GET /trades/live` returns all have status live, so none is
completed, and the trades `GET /trades/logs` returns all have status completed,
so none is live. When the store answers, each returns exactly the stored trades
of its status (a rearrangement of them) ordered by createdAt, latest first; for
the live query an empty result is the 404 response, which carries no trade. -/
theorem queries_return_their_status_sorted (store : List TradeDoc) (dbOk : Bool) :
    (∀ t ∈ (getTradesLive store dbOk).tradeList, t.status = "live" ∧ t.status ≠ "completed")
    ∧ (∀ t ∈ (getTradesLogs store dbOk).tradeList, t.status = "completed" ∧ t.status ≠ "live")
    ∧ (getTradesLive store true).tradeList.Perm (store.filter (fun t => t.status = "live"))
    ∧ (getTradesLogs store true).tradeList.Perm (store.filter (fun t => t.status = "completed"))
    ∧ (getTradesLive store dbOk).tradeList.Sorted createdAtDesc
    ∧ (getTradesLogs store dbOk).tradeList.Sorted createdAtDesc
    ∧ (getTradesLogs store true).status = 200
    ∧ (getTradesLive store true).status
        = if store.filter (fun t => t.status = "live") = [] then 404 else 200 := by
  have hlive : (getTradesLive store true).tradeList
      = (store.filter (fun t => t.status = "live")).insertionSort createdAtDesc := by
    simp only [getTradesLive, findSorted, if_true]
    split
    · rename_i h
      simp only [Response.tradeList]
      exact (List.length_eq_zero.1 h).symm
    · rfl
  have hlogs : (getTradesLogs store true).tradeList
      = (store.filter (fun t => t.status = "completed")).insertionSort createdAtDesc := rfl
  have hliveF : (getTradesLive store false).tradeList = [] := rfl
  have hlogsF : (getTradesLogs store false).tradeList = [] := rfl
  have hmem : ∀ (st : String) (t : TradeDoc),
      t ∈ (store.filter (fun t => t.status = st)).insertionSort createdAtDesc → t.status = st := by
    intro st t ht
    have := (List.perm_insertionSort createdAtDesc _).mem_iff.1 ht
    simpa using (List.mem_filter.1 this).2
  refine ⟨?_, ?_, ?_, ?_, ?_, ?_, rfl, ?_⟩
  · intro t ht
    cases dbOk with
    | false => rw [hliveF] at ht; cases ht
    | true =>
      rw [hlive] at ht
      have := hmem "live" t ht
      rw [this]
      exact ⟨rfl, by decide⟩
  · intro t ht
    cases dbOk with
    | false => rw [hlogsF] at ht; cases ht
    | true =>
      rw [hlogs] at ht
      have := hmem "completed" t ht
      rw [this]
      exact ⟨rfl, by decide⟩
  · rw [hlive]; exact List.perm_insertionSort _ _
  · rw [hlogs]; exact List.perm_insertionSort _ _
  · cases dbOk with
    | false => rw [hliveF]; exact List.sorted_nil
    | true => rw [hlive]; exact List.sorted_insertionSort _ _
  · cases dbOk with
    | false => rw [hlogsF]; exact List.sorted_nil
    | true => rw [hlogs]; exact List.sorted_insertionSort _ _
  · simp only [getTradesLive, findSorted, if_true]
    by_cases h : store.filter (fun t => t.status = "live") = []
    · simp [h]
    · have : ¬ ((store.filter (fun t => t.status = "live")).insertionSort createdAtDesc).length = 0 := by
        rw [List.length_insertionSort]
        exact fun h0 => h (List.length_eq_zero.1 h0)
      simp only [this, if_false, h]

/-- Witness for C7: the live trade of a store holding one live and one
completed trade is returned by the live query with status live. -/
theorem queries_return_their_status_sorted_witness :
    sampleTrade.status = "live" ∧ sampleTrade.status ≠ "completed" :=
  (queries_return_their_status_sorted [sampleTrade, sampleCompleted "won" 5000] true).1
    sampleTrade (by decide)

/-! ## What one action does to the state -/

theorem postTradesNew_cases (cv : JsConv) (s : State) (body : Body) (newId now : Nat)
    (dbOk : Bool) (clients : List Client) :
    (postTradesNew cv s body newId now dbOk clients).1 = s
    ∨ ∃ t : TradeDoc, t._id = newId ∧ t.status = "live" ∧ t.outcome = none
        ∧ t.completedAt = none ∧ t.createdAt = now
        ∧ findById s.store newId = none
        ∧ (postTradesNew cv s body newId now dbOk clients).1 =
            { store := s.store ++ [t]
              timers := s.timers ++ [{ tradeId := newId, expiryTime := body.get "expiryTime" }]
              published := s.published ++ [{ type := "NEW_TRADE", trade := some t }]
              sent := broadcast { type := "NEW_TRADE", trade := some t } clients s.sent } := by
  unfold postTradesNew save
  simp only
  cases hv : validate (Trade.new cv (body.get "amount") (body.get "direction")
      (body.get "expiryTime") newId now) with
  | none => left; rfl
  | some t =>
    have ht : t._id = newId ∧ t.status = "live" ∧ t.outcome = none ∧ t.completedAt = none
        ∧ t.createdAt = now := by
      unfold validate at hv
      split at hv
      · simp only [Option.some.injEq] at hv
        subst hv
        exact ⟨rfl, rfl, rfl, rfl, rfl⟩
      · cases hv
    by_cases hc : dbOk = true ∧ findById s.store t._id = none
    · right
      refine ⟨t, ht.1, ht.2.1, ht.2.2.1, ht.2.2.2.1, ht.2.2.2.2, ht.1 ▸ hc.2, ?_⟩
      have hc2 : dbOk = true ∧ findById s.store newId = none := ht.1 ▸ hc
      simp only [ht.1, if_pos hc2, processTradeOutcome]
    · left
      simp only [hc, if_false]

theorem fireTimer_cases (s : State) (k : Nat) (random : Rat) (now : Nat) (dbOk : Bool)
    (clients : List Client) :
    fireTimer s k random now dbOk clients = s
    ∨ (∃ tm, s.timers.get? k = some tm
        ∧ fireTimer s k random now dbOk clients = { s with timers := s.timers.eraseIdx k })
    ∨ ∃ tm u, s.timers.get? k = some tm
        ∧ u.status = "completed" ∧ (u.outcome = "won" ∨ u.outcome = "lost")
        ∧ u.completedAt = now
        ∧ fireTimer s k random now dbOk clients =
            { store := (findByIdAndUpdate s.store tm.tradeId u).1
              timers := s.timers.eraseIdx k
              published := s.published ++
                [{ type := "TRADE_COMPLETED", trade := (findByIdAndUpdate s.store tm.tradeId u).2 }]
              sent := broadcast
                { type := "TRADE_COMPLETED", trade := (findByIdAndUpdate s.store tm.tradeId u).2 }
                clients s.sent } := by
  unfold fireTimer
  cases hk : s.timers.get? k with
  | none => left; rfl
  | some tm =>
    right
    cases dbOk with
    | false => left; exact ⟨tm, rfl, rfl⟩
    | true =>
      right
      refine ⟨tm, ⟨"completed", if decide (random < half) = true then "won" else "lost", now⟩,
        rfl, rfl, ?_, rfl, rfl⟩
      by_cases h : random < half
      · left; simp [h]
      · right; simp [h]

/-! ## Histories under extension -/

theorem newTradeIds_append (l m : List Event) :
    newTradeIds (l ++ m) = newTradeIds l ++ newTradeIds m := by
  simp [newTradeIds, List.filterMap_append]

theorem completedIds_append (l m : List Event) :
    completedIds (l ++ m) = completedIds l ++ completedIds m := by
  simp [completedIds, List.filterMap_append]

theorem newTradeIds_new (t : TradeDoc) :
    newTradeIds [{ type := "NEW_TRADE", trade := some t }] = [t._id] := by
  simp [newTradeIds]

theorem completedIds_new (t : TradeDoc) :
    completedIds [{ type := "NEW_TRADE", trade := some t }] = [] := by
  simp [completedIds]

theorem newTradeIds_completed (r : Option TradeDoc) :
    newTradeIds [{ type := "TRADE_COMPLETED", trade := r }] = [] := by
  simp [newTradeIds]

theorem completedIds_completed (t : TradeDoc) :
    completedIds [{ type := "TRADE_COMPLETED", trade := some t }] = [t._id] := by
  simp [completedIds]

theorem mem_completedIds_of_mem {l : List Event} {e : Event} {i : Nat} (he : e ∈ l)
    (hi : i ∈ completedIds [e]) : i ∈ completedIds l := by
  obtain ⟨pre, post, rfl⟩ := List.append_of_mem he
  rw [completedIds_append]
  have : completedIds (e :: post) = completedIds [e] ++ completedIds post := by
    rw [← completedIds_append]; rfl
  rw [this]
  exact List.mem_append_right _ (List.mem_append_left _ hi)

theorem not_mem_storeIds {store : List TradeDoc} {id : Nat} (h : findById store id = none) :
    id ∉ storeIds store := by
  intro hmem
  have := (findById_isSome_iff store id).2 hmem
  rw [h] at this
  cases this

theorem exists_of_mem_storeIds {store : List TradeDoc} {id : Nat} (h : id ∈ storeIds store) :
    ∃ t, findById store id = some t ∧ t._id = id := by
  have := (findById_isSome_iff store id).2 h
  cases hf : findById store id with
  | none => rw [hf] at this; cases this
  | some t => exact ⟨t, rfl, (findById_some_id hf).1⟩

theorem eraseIdx_tradeId_ne {l : List Timer} (hn : (l.map (fun tm => tm.tradeId)).Nodup)
    {k : Nat} {tm other : Timer} (hk : l.get? k = some tm) (hm : other ∈ l.eraseIdx k) :
    other.tradeId ≠ tm.tradeId := by
  induction l generalizing k with
  | nil => simp at hk
  | cons a l ih =>
    rw [List.map_cons, List.nodup_cons] at hn
    cases k with
    | zero =>
      simp only [List.get?_cons_zero, Option.some.injEq] at hk
      subst hk
      simp only [List.eraseIdx_cons_zero] at hm
      intro heq
      exact hn.1 (heq ▸ List.mem_map_of_mem _ hm)
    | succ k =>
      simp only [List.get?_cons_succ] at hk
      simp only [List.eraseIdx_cons_succ, List.mem_cons] at hm
      rcases hm with hm | hm
      · subst hm
        intro heq
        have htm : tm ∈ l := List.get?_mem hk
        exact hn.1 (heq ▸ List.mem_map_of_mem (fun tm => tm.tradeId) htm)
      · exact ih hn.2 hk hm

theorem mem_of_mem_eraseIdx_timers {l : List Timer} {k : Nat} {tm : Timer}
    (h : tm ∈ l.eraseIdx k) : tm ∈ l :=
  (List.eraseIdx_sublist l k).subset h

theorem Inv.init : Inv State.init := by
  constructor <;> simp [State.init, newTradeIds, completedIds, storeIds]

theorem get?_snoc_cases {α : Type} (l : List α) (x : α) (j : Nat) (e : α)
    (h : (l ++ [x]).get? j = some e) :
    (j < l.length ∧ l.get? j = some e ∧ (l ++ [x]).take j = l.take j)
    ∨ (j = l.length ∧ e = x ∧ (l ++ [x]).take j = l) := by
  by_cases hj : j < l.length
  · left
    refine ⟨hj, ?_, ?_⟩
    · rw [List.get?_eq_getElem?] at h ⊢
      rwa [List.getElem?_append_left hj] at h
    · rw [List.take_append_of_le_length (Nat.le_of_lt hj)]
  · right
    have hlen : j < (l ++ [x]).length := by
      rw [List.get?_eq_getElem?] at h
      exact (List.getElem?_eq_some.1 h).1
    simp only [List.length_append, List.length_singleton] at hlen
    have hj2 : j = l.length := by omega
    subst hj2
    refine ⟨rfl, ?_, ?_⟩
    · rw [List.get?_eq_getElem?] at h
      simpa using h.symm
    · simp

theorem Inv.post_ok {s : State} (hs : Inv s) (t : TradeDoc) (raw : JVal)
    (clients : List Client) (hlive : t.status = "live") (hout : t.outcome = none)
    (hfresh : findById s.store t._id = none) :
    Inv { store := s.store ++ [t]
          timers := s.timers ++ [{ tradeId := t._id, expiryTime := raw }]
          published := s.published ++ [{ type := "NEW_TRADE", trade := some t }]
          sent := broadcast { type := "NEW_TRADE", trade := some t } clients s.sent } := by
  have hnot : t._id ∉ storeIds s.store := not_mem_storeIds hfresh
  have hnc : t._id ∉ completedIds s.published := fun h => hnot (hs.completed_stored _ h)
  constructor
  · intro tm htm
    simp only [List.mem_append, List.mem_singleton] at htm
    simp only [storeIds, List.map_append, List.mem_append, List.map_cons, List.map_nil,
      List.mem_singleton]
    rcases htm with h | h
    · exact Or.inl (hs.timers_stored tm h)
    · right; rw [h]
  · simp only [List.map_append, List.map_cons, List.map_nil]
    rw [List.nodup_append]
    refine ⟨hs.timers_nodup, List.nodup_singleton _, ?_⟩
    intro a ha hb
    simp only [List.mem_singleton] at hb
    obtain ⟨tm, htm, heq⟩ := List.mem_map.1 ha
    have hmem := hs.timers_stored tm htm
    rw [heq, hb] at hmem
    exact hnot hmem
  · intro tm htm
    simp only [List.mem_append, List.mem_singleton] at htm
    rw [newTradeIds_append, newTradeIds_new]
    rcases htm with h | h
    · exact List.mem_append_left _ (hs.timers_new tm h)
    · rw [h]; simp
  · intro tm htm
    simp only [List.mem_append, List.mem_singleton] at htm
    rw [completedIds_append, completedIds_new, List.append_nil]
    rcases htm with h | h
    · exact hs.timers_pending tm h
    · rw [h]; exact hnc
  · intro i hi
    rw [completedIds_append, completedIds_new, List.append_nil] at hi
    simp only [storeIds, List.map_append, List.mem_append]
    exact Or.inl (hs.completed_stored i hi)
  · rw [completedIds_append, completedIds_new, List.append_nil]
    exact hs.completed_nodup
  · intro p hp
    rw [broadcast_eq] at hp
    simp only [List.mem_append, List.mem_map] at hp ⊢
    rcases hp with h | ⟨c, _, rfl⟩
    · exact Or.inl (hs.sent_published p h)
    · right; simp
  · intro j e hj i hi
    rcases get?_snoc_cases _ _ _ _ hj with ⟨_, h1, h2⟩ | ⟨_, h1, _⟩
    · rw [h2]; exact hs.new_first j e h1 i hi
    · rw [h1, completedIds_new] at hi; cases hi
  · rw [List.pairwise_append]
    refine ⟨hs.no_new_after, List.pairwise_singleton _ _, ?_⟩
    intro a ha b hb i hi
    simp only [List.mem_singleton] at hb
    subst hb
    rw [newTradeIds_new]
    simp only [List.mem_singleton]
    intro heq
    exact hnc (heq ▸ mem_completedIds_of_mem ha hi)
  · rw [broadcast_eq, List.pairwise_append]
    refine ⟨hs.sent_order, ?_, ?_⟩
    · rw [List.pairwise_map]
      apply List.pairwise_of_forall
      intro a b i hi
      rw [completedIds_new] at hi; cases hi
    · intro a ha b hb i hi
      obtain ⟨c, _, rfl⟩ := List.mem_map.1 hb
      rw [newTradeIds_new]
      simp only [List.mem_singleton]
      intro heq
      exact hnc (heq ▸ mem_completedIds_of_mem (hs.sent_published a ha) hi)
  · intro x hx
    simp only [List.mem_append, List.mem_singleton] at hx
    rcases hx with h | h
    · exact hs.outcome_iff x h
    · subst h
      rw [hlive, hout]
      simp

theorem Inv.drop_timer {s : State} (hs : Inv s) (k : Nat) :
    Inv { s with timers := s.timers.eraseIdx k } := by
  constructor
  · intro tm htm
    exact hs.timers_stored tm (mem_of_mem_eraseIdx_timers htm)
  · exact hs.timers_nodup.sublist ((List.eraseIdx_sublist s.timers k).map _)
  · intro tm htm
    exact hs.timers_new tm (mem_of_mem_eraseIdx_timers htm)
  · intro tm htm
    exact hs.timers_pending tm (mem_of_mem_eraseIdx_timers htm)
  · exact hs.completed_stored
  · exact hs.completed_nodup
  · exact hs.sent_published
  · exact hs.new_first
  · exact hs.no_new_after
  · exact hs.sent_order
  · exact hs.outcome_iff

theorem Inv.fire_ok {s : State} (hs : Inv s) (k : Nat) (tm : Timer) (u : Update)
    (clients : List Client) (hk : s.timers.get? k = some tm) (hu : u.status = "completed") :
    Inv { store := (findByIdAndUpdate s.store tm.tradeId u).1
          timers := s.timers.eraseIdx k
          published := s.published ++
            [{ type := "TRADE_COMPLETED", trade := (findByIdAndUpdate s.store tm.tradeId u).2 }]
          sent := broadcast
            { type := "TRADE_COMPLETED", trade := (findByIdAndUpdate s.store tm.tradeId u).2 }
            clients s.sent } := by
  have htm : tm ∈ s.timers := List.get?_mem hk
  obtain ⟨t0, hfind, hid0⟩ := exists_of_mem_storeIds (hs.timers_stored tm htm)
  have hr : (findByIdAndUpdate s.store tm.tradeId u).2 = some (applyUpdate t0 u) := by
    rw [findByIdAndUpdate_snd, hfind]; rfl
  have hidu : (applyUpdate t0 u)._id = tm.tradeId := hid0
  have hids : storeIds (findByIdAndUpdate s.store tm.tradeId u).1 = storeIds s.store :=
    findByIdAndUpdate_ids _ _ _
  rw [hr]
  constructor
  · intro x hx
    simp only [hids]
    exact hs.timers_stored x (mem_of_mem_eraseIdx_timers hx)
  · exact hs.timers_nodup.sublist ((List.eraseIdx_sublist s.timers k).map _)
  · intro x hx
    rw [newTradeIds_append, newTradeIds_completed, List.append_nil]
    exact hs.timers_new x (mem_of_mem_eraseIdx_timers hx)
  · intro x hx
    rw [completedIds_append, completedIds_completed, hidu]
    simp only [List.mem_append, List.mem_singleton, not_or]
    exact ⟨hs.timers_pending x (mem_of_mem_eraseIdx_timers hx),
      eraseIdx_tradeId_ne hs.timers_nodup hk hx⟩
  · intro i hi
    rw [completedIds_append, completedIds_completed, hidu] at hi
    simp only [List.mem_append, List.mem_singleton] at hi
    simp only [hids]
    rcases hi with h | h
    · exact hs.completed_stored i h
    · rw [h]; exact hs.timers_stored tm htm
  · rw [completedIds_append, completedIds_completed, hidu, List.nodup_append]
    refine ⟨hs.completed_nodup, List.nodup_singleton _, ?_⟩
    intro a ha hb
    simp only [List.mem_singleton] at hb
    rw [hb] at ha
    exact hs.timers_pending tm htm ha
  · intro p hp
    rw [broadcast_eq] at hp
    simp only [List.mem_append, List.mem_map] at hp ⊢
    rcases hp with h | ⟨c, _, rfl⟩
    · exact Or.inl (hs.sent_published p h)
    · right; simp
  · intro j e hj i hi
    rcases get?_snoc_cases _ _ _ _ hj with ⟨_, h1, h2⟩ | ⟨_, h1, h2⟩
    · rw [h2]; exact hs.new_first j e h1 i hi
    · rw [h2]
      rw [h1, completedIds_completed, hidu] at hi
      simp only [List.mem_singleton] at hi
      rw [hi]
      exact hs.timers_new tm htm
  · rw [List.pairwise_append]
    refine ⟨hs.no_new_after, List.pairwise_singleton _ _, ?_⟩
    intro a _ b hb i _
    simp only [List.mem_singleton] at hb
    rw [hb, newTradeIds_completed]
    exact List.not_mem_nil _
  · rw [broadcast_eq, List.pairwise_append]
    refine ⟨hs.sent_order, ?_, ?_⟩
    · rw [List.pairwise_map]
      apply List.pairwise_of_forall
      intro a b i _
      rw [newTradeIds_completed]
      exact List.not_mem_nil _
    · intro a _ b hb i _
      obtain ⟨c, _, rfl⟩ := List.mem_map.1 hb
      rw [newTradeIds_completed]
      exact List.not_mem_nil _
  · intro x hx
    rcases mem_findByIdAndUpdate _ _ _ _ hx with h | ⟨t1, _, _, rfl⟩
    · exact hs.outcome_iff x h
    · simp [applyUpdate, hu]

theorem Inv.step (cv : JsConv) {s : State} (hs : Inv s) (a : Action) : Inv (step cv s a) := by
  cases a with
  | post body newId now dbOk clients =>
    simp only [TradeApi.step]
    rcases postTradesNew_cases cv s body newId now dbOk clients with h | ⟨t, hid, hl, ho, _, _, hf, h⟩
    · rw [h]; exact hs
    · rw [h, ← hid]
      exact hs.post_ok t _ clients hl ho (hid ▸ hf)
  | fire k random now dbOk clients =>
    simp only [TradeApi.step]
    rcases fireTimer_cases s k random now dbOk clients with h | ⟨tm, _, h⟩ | ⟨tm, u, hk, hu, _, _, h⟩
    · rw [h]; exact hs
    · rw [h]; exact hs.drop_timer k
    · rw [h]; exact hs.fire_ok k tm u clients hk hu

theorem Inv.run (cv : JsConv) {s : State} (hs : Inv s) (actions : List Action) :
    Inv (run cv s actions) := by
  induction actions generalizing s with
  | nil => exact hs
  | cons a rest ih => exact ih (hs.step cv a)

theorem findByIdAndUpdate_none {store : List TradeDoc} {id : Nat} (u : Update)
    (h : findById store id = none) :
    findByIdAndUpdate store id u = (store, none) := by
  induction store with
  | nil => rfl
  | cons t ts ih =>
    unfold findById at h ih
    by_cases ht : t._id = id
    · simp [List.find?_cons, ht] at h
    · have h2 : List.find? (fun t => decide (t._id = id)) ts = none := by
        simpa [List.find?_cons, ht] using h
      simp [findByIdAndUpdate, ht, ih h2]

theorem resolveTrade_found (s : State) (id : Nat) (t : TradeDoc) (random : Rat) (now : Nat)
    (clients : List Client) (ht : findById s.store id = some t) :
    findById (resolveTrade s id random now true clients).store id =
        some (applyUpdate t ⟨"completed", if decide (random < half) = true then "won" else "lost", now⟩)
    ∧ (resolveTrade s id random now true clients).published = s.published ++
        [⟨"TRADE_COMPLETED",
          some (applyUpdate t ⟨"completed", if decide (random < half) = true then "won" else "lost", now⟩)⟩]
    ∧ (resolveTrade s id random now true clients).sent = broadcast
        ⟨"TRADE_COMPLETED",
          some (applyUpdate t ⟨"completed", if decide (random < half) = true then "won" else "lost", now⟩)⟩
        clients s.sent := by
  refine ⟨?_, ?_, ?_⟩
  · simp only [resolveTrade, if_true, findById_findByIdAndUpdate, ht, Option.map]
  · simp only [resolveTrade, if_true, findByIdAndUpdate_snd, ht, Option.map]
  · simp only [resolveTrade, if_true, findByIdAndUpdate_snd, ht, Option.map]

theorem validate_none (d : Draft)
    (h : requiredNumber d.amount = none ∨ requiredString d.direction = none
      ∨ requiredNumber d.expiryTime = none) : validate d = none := by
  unfold validate
  cases h1 : requiredNumber d.amount <;> cases h2 : requiredString d.direction <;>
    cases h3 : requiredNumber d.expiryTime <;> simp_all

/-! ## Repeated and stray resolutions -/

/-- C3, as the code has it: in every run of the server from the empty store no
trade is resolved twice, because a creation suspends one resolution for its
fresh identifier and a suspended resolution is consumed when it fires: the
TRADE_COMPLETED events published so far carry pairwise different trade
identifiers. The resolution step itself does not guard against repetition: run
a second time on the same identifier, with the store answering, it keeps status
completed and the identifier, amount, direction, expiryTime and createdAt, sets
outcome and completedAt from the second draw and clock, and publishes a second
TRADE_COMPLETED event. -/
theorem resolved_once_in_runs_step_not_idempotent (cv : JsConv) (actions : List Action) :
    (completedIds (run cv State.init actions).published).Nodup
    ∧ ∀ (s : State) (id : Nat) (t : TradeDoc) (r1 r2 : Rat) (n1 n2 : Nat)
        (c1 c2 : List Client), findById s.store id = some t →
      ∃ first second : TradeDoc,
        findById (resolveTrade s id r1 n1 true c1).store id = some first
        ∧ findById (resolveTrade (resolveTrade s id r1 n1 true c1) id r2 n2 true c2).store id
            = some second
        ∧ second.status = "completed"
        ∧ second.outcome = some (if r2 < half then "won" else "lost")
        ∧ second.completedAt = some n2
        ∧ second._id = t._id ∧ second.amount = t.amount ∧ second.direction = t.direction
        ∧ second.expiryTime = t.expiryTime ∧ second.createdAt = t.createdAt
        ∧ (resolveTrade (resolveTrade s id r1 n1 true c1) id r2 n2 true c2).published =
            s.published ++ [{ type := "TRADE_COMPLETED", trade := some first },
                            { type := "TRADE_COMPLETED", trade := some second }] := by
  refine ⟨(Inv.run cv Inv.init actions).completed_nodup, ?_⟩
  intro s id t r1 r2 n1 n2 c1 c2 ht
  obtain ⟨h1, h2, _⟩ := resolveTrade_found s id t r1 n1 c1 ht
  obtain ⟨h3, h4, _⟩ := resolveTrade_found _ id _ r2 n2 c2 h1
  refine ⟨_, _, h1, h3, rfl, ?_, rfl, rfl, rfl, rfl, rfl, rfl, ?_⟩
  · by_cases h : r2 < half <;> simp [applyUpdate, h]
  · rw [h4, h2]; simp

/-- Witness for C3: the resolution of `sampleTrade` run twice. -/
theorem resolved_once_in_runs_step_not_idempotent_witness :
    ∃ first second : TradeDoc,
      findById (resolveTrade sampleState 1 0 5000 true sampleClients).store 1 = some first
      ∧ findById (resolveTrade (resolveTrade sampleState 1 0 5000 true sampleClients) 1 threeQuarters 9000
          true sampleClients).store 1 = some second
      ∧ second.status = "completed"
      ∧ second.outcome = some (if threeQuarters < half then "won" else "lost")
      ∧ second.completedAt = some 9000 := by
  obtain ⟨a, b, h1, h2, h3, h4, h5, _⟩ :=
    (resolved_once_in_runs_step_not_idempotent sampleConv []).2 sampleState 1 sampleTrade
      0 threeQuarters 5000 9000 sampleClients sampleClients rfl
  exact ⟨a, b, h1, h2, h3, h4, h5⟩

/-- Counterexample to C3 as stated: `sampleTrade` is resolved with the draw 0
at clock 5000 and again with the draw 0.75 at clock 9000. The second run changes
the stored outcome from won to lost and completedAt from 5000 to 9000, and two
TRADE_COMPLETED events for trade 1 stand in the history. -/
theorem second_resolution_overwrites :
    (resolveTrade sampleState 1 0 5000 true sampleClients).store =
        [sampleCompleted "won" 5000]
    ∧ (resolveTrade (resolveTrade sampleState 1 0 5000 true sampleClients) 1 threeQuarters 9000 true
          sampleClients).store =
        [sampleCompleted "lost" 9000]
    ∧ completedIds (resolveTrade (resolveTrade sampleState 1 0 5000 true sampleClients) 1 threeQuarters 9000
          true sampleClients).published = [1, 1] := by
  decide

/-- C4, as the code has it: when the resolution runs for an identifier that is
not in the store, the store is left as it is and nothing is raised, but a
TRADE_COMPLETED event whose trade is null is published and sent to the open
clients; when it runs for a trade that is already completed, the trade stays
completed, its outcome and completedAt are set anew from this draw and clock,
and a TRADE_COMPLETED event carrying the rewritten trade is published and sent
to the open clients. -/
theorem resolveTrade_unknown_or_completed (s : State) (id : Nat) (random : Rat) (now : Nat)
    (clients : List Client) :
    (findById s.store id = none →
      (resolveTrade s id random now true clients).store = s.store
      ∧ (resolveTrade s id random now true clients).timers = s.timers
      ∧ (resolveTrade s id random now true clients).published =
          s.published ++ [{ type := "TRADE_COMPLETED", trade := none }]
      ∧ (resolveTrade s id random now true clients).sent =
          s.sent ++ (clients.filter (fun c => c.readyState = WebSocket.OPEN)).map
            (fun c => (c, { type := "TRADE_COMPLETED", trade := none })))
    ∧ ∀ t : TradeDoc, findById s.store id = some t → t.status = "completed" →
      ∃ updated : TradeDoc,
        findById (resolveTrade s id random now true clients).store id = some updated
        ∧ updated.status = "completed"
        ∧ updated.outcome = some (if random < half then "won" else "lost")
        ∧ updated.completedAt = some now
        ∧ (resolveTrade s id random now true clients).published =
            s.published ++ [{ type := "TRADE_COMPLETED", trade := some updated }]
        ∧ (resolveTrade s id random now true clients).sent =
            s.sent ++ (clients.filter (fun c => c.readyState = WebSocket.OPEN)).map
              (fun c => (c, { type := "TRADE_COMPLETED", trade := some updated })) := by
  constructor
  · intro h
    simp [resolveTrade, findByIdAndUpdate_none _ h, broadcast_eq]
  · intro t ht _
    obtain ⟨h1, h2, h3⟩ := resolveTrade_found s id t random now clients ht
    refine ⟨_, h1, rfl, ?_, rfl, h2, ?_⟩
    · by_cases h : random < half <;> simp [applyUpdate, h]
    · rw [h3, broadcast_eq]

/-- Witness for C4: a resolution for identifier 9, which `sampleState` does not
store, with one open and one closed client. -/
theorem resolveTrade_unknown_or_completed_witness :
    (resolveTrade sampleState 9 0 5000 true sampleClients).store = sampleState.store
    ∧ (resolveTrade sampleState 9 0 5000 true sampleClients).published =
        sampleState.published ++ [{ type := "TRADE_COMPLETED", trade := none }] := by
  obtain ⟨h1, _, h3, _⟩ :=
    (resolveTrade_unknown_or_completed sampleState 9 0 5000 sampleClients).1 rfl
  exact ⟨h1, h3⟩

/-- Counterexample to C4 as stated: on the empty store a resolution for
identifier 1 still sends a TRADE_COMPLETED message, with a null trade, to the
open client; and a resolution for a trade that is already completed as lost
rewrites it as won and sends a TRADE_COMPLETED message for it. -/
theorem stray_resolution_broadcasts :
    (resolveTrade State.init 1 0 5000 true sampleClients).sent =
        [({ id := 1, readyState := 1 }, { type := "TRADE_COMPLETED", trade := none })]
    ∧ (resolveTrade
          { store := [sampleCompleted "lost" 3000], timers := [], published := [], sent := [] }
          1 0 5000 true sampleClients) =
        { store := [sampleCompleted "won" 5000]
          timers := []
          published := [{ type := "TRADE_COMPLETED", trade := some (sampleCompleted "won" 5000) }]
          sent := [({ id := 1, readyState := 1 },
                    { type := "TRADE_COMPLETED", trade := some (sampleCompleted "won" 5000) })] } := by
  decide

/-! ## Validation at creation -/

/-- C5, as the schema has it: a creation request fails validation, with a 500
response carrying the validation error, nothing persisted, no NEW_TRADE event
and no resolution suspended, whenever amount or expiryTime (or, when it is an
object, its `_id`) is absent, null, an array, the empty string or a string that
does not read as a number, or is an object whose `_id` is an object, or
direction is absent, null, an array, the empty string or an object whose `_id`
is not a non-empty string. Nothing more is checked: the direction need not be
up or down, expiryTime need not be positive, and a boolean, a string that reads
as a number or an object with such an `_id` is cast and accepted. -/
theorem postTradesNew_rejects_uncastable (cv : JsConv) (s : State) (body : Body)
    (newId now : Nat) (dbOk : Bool) (clients : List Client)
    (h : (∃ u : JVal, (body.get "amount" = u ∨ body.get "amount" = JVal.object u)
            ∧ (u = JVal.undefined ∨ u = JVal.null ∨ u = JVal.array
              ∨ ∃ str, u = JVal.str str ∧ (str = "" ∨ cv.toNumber str = none)))
        ∨ (∃ x : JVal, body.get "amount" = JVal.object (JVal.object x))
        ∨ (body.get "direction" = JVal.undefined ∨ body.get "direction" = JVal.null
            ∨ body.get "direction" = JVal.array ∨ body.get "direction" = JVal.str ""
            ∨ ∃ w : JVal, body.get "direction" = JVal.object w ∧ ∀ str, w = JVal.str str → str = "")
        ∨ (∃ u : JVal, (body.get "expiryTime" = u ∨ body.get "expiryTime" = JVal.object u)
            ∧ (u = JVal.undefined ∨ u = JVal.null ∨ u = JVal.array
              ∨ ∃ str, u = JVal.str str ∧ (str = "" ∨ cv.toNumber str = none)))
        ∨ (∃ x : JVal, body.get "expiryTime" = JVal.object (JVal.object x))) :
    postTradesNew cv s body newId now dbOk clients =
      (s, { status := 500
            body := ResBody.messageError "Failed to place trade" StoreError.validationError }) := by
  have hbad : ∀ u : JVal, (u = JVal.undefined ∨ u = JVal.null ∨ u = JVal.array
      ∨ ∃ str, u = JVal.str str ∧ (str = "" ∨ cv.toNumber str = none)) →
      requiredNumber (castNumberValue cv u) = none := by
    intro u hu
    rcases hu with rfl | rfl | rfl | ⟨str, rfl, hstr⟩
    · rfl
    · rfl
    · rfl
    · by_cases he : str = ""
      · simp [castNumberValue, he, requiredNumber]
      · rcases hstr with h1 | h1
        · exact absurd h1 he
        · simp [castNumberValue, he, h1, requiredNumber]
  have hnum : ∀ v : JVal,
      ((∃ u : JVal, (v = u ∨ v = JVal.object u)
          ∧ (u = JVal.undefined ∨ u = JVal.null ∨ u = JVal.array
            ∨ ∃ str, u = JVal.str str ∧ (str = "" ∨ cv.toNumber str = none)))
        ∨ ∃ x : JVal, v = JVal.object (JVal.object x)) →
      requiredNumber (castNumber cv v) = none := by
    intro v hv
    rcases hv with ⟨u, hvu | hvu, hu⟩ | ⟨x, rfl⟩
    · subst hvu
      have hun : unwrapId v = v := by
        rcases hu with rfl | rfl | rfl | ⟨str, rfl, _⟩ <;> rfl
      rw [castNumber, hun]
      exact hbad v hu
    · subst hvu
      by_cases hund : u = JVal.undefined
      · subst hund
        rfl
      · have hun : unwrapId (JVal.object u) = u := by simp [unwrapId, hund]
        rw [castNumber, hun]
        exact hbad u hu
    · rfl
  have hstr : ∀ v : JVal, (v = JVal.undefined ∨ v = JVal.null ∨ v = JVal.array
      ∨ v = JVal.str "" ∨ ∃ w : JVal, v = JVal.object w ∧ ∀ str, w = JVal.str str → str = "") →
      requiredString (castString cv v) = none := by
    intro v hv
    rcases hv with rfl | rfl | rfl | rfl | ⟨w, rfl, hw⟩
    · rfl
    · rfl
    · rfl
    · rfl
    · cases w with
      | str str => simp [castString, hw str rfl, requiredString]
      | undefined => rfl
      | null => rfl
      | bool b => rfl
      | num n => rfl
      | array => rfl
      | object x => rfl
  have hval : validate (Trade.new cv (body.get "amount") (body.get "direction")
      (body.get "expiryTime") newId now) = none := by
    apply validate_none
    rcases h with h | h | h | h | h
    · exact Or.inl (hnum _ (Or.inl h))
    · exact Or.inl (hnum _ (Or.inr h))
    · exact Or.inr (Or.inl (hstr _ h))
    · exact Or.inr (Or.inr (hnum _ (Or.inl h)))
    · exact Or.inr (Or.inr (hnum _ (Or.inr h)))
  simp only [postTradesNew, save, hval]

/-- Witness for C5: a request body without an amount. -/
theorem postTradesNew_rejects_uncastable_witness :
    postTradesNew sampleConv State.init
        [("direction", JVal.str "up"), ("expiryTime", JVal.num 2)] 7 1000 true sampleClients =
      (State.init, { status := 500
                     body := ResBody.messageError "Failed to place trade"
                       StoreError.validationError }) :=
  postTradesNew_rejects_uncastable sampleConv State.init
    [("direction", JVal.str "up"), ("expiryTime", JVal.num 2)] 7 1000 true sampleClients
    (Or.inl ⟨JVal.undefined, Or.inl rfl, Or.inl rfl⟩)

/-- Counterexample to C5 as stated, four requests that are all accepted with
201, the trade persisted, its NEW_TRADE event published and a resolution
suspended for it: one whose direction is sideways and whose expiryTime is -5;
one whose amount is the boolean true, stored as 1; one whose amount is the
string 12, stored as the number 12; and one whose amount is an object with
`_id` 100 and whose direction is an object with `_id` up, stored as 100 and
up. -/
theorem unlisted_direction_is_accepted :
    postTradesNew sampleConv State.init
        [("amount", JVal.num 100), ("direction", JVal.str "sideways"),
         ("expiryTime", JVal.num (-5))] 7 1000 true [] =
      ({ store := [sidewaysTrade]
         timers := [{ tradeId := 7, expiryTime := JVal.num (-5) }]
         published := [{ type := "NEW_TRADE", trade := some sidewaysTrade }]
         sent := [] },
       { status := 201, body := ResBody.messageTrade "Trade placed successfully" sidewaysTrade })
    ∧ postTradesNew sampleConv State.init
        [("amount", JVal.bool true), ("direction", JVal.str "up"),
         ("expiryTime", JVal.num 2)] 7 1000 true [] =
      ({ store := [booleanAmountTrade]
         timers := [{ tradeId := 7, expiryTime := JVal.num 2 }]
         published := [{ type := "NEW_TRADE", trade := some booleanAmountTrade }]
         sent := [] },
       { status := 201
         body := ResBody.messageTrade "Trade placed successfully" booleanAmountTrade })
    ∧ postTradesNew sampleConv State.init
        [("amount", JVal.str "12"), ("direction", JVal.str "up"),
         ("expiryTime", JVal.num 2)] 7 1000 true [] =
      ({ store := [stringAmountTrade]
         timers := [{ tradeId := 7, expiryTime := JVal.num 2 }]
         published := [{ type := "NEW_TRADE", trade := some stringAmountTrade }]
         sent := [] },
       { status := 201
         body := ResBody.messageTrade "Trade placed successfully" stringAmountTrade })
    ∧ postTradesNew sampleConv State.init
        [("amount", JVal.object (JVal.num 100)), ("direction", JVal.object (JVal.str "up")),
         ("expiryTime", JVal.num 2)] 7 1000 true [] =
      ({ store := [objectFieldsTrade]
         timers := [{ tradeId := 7, expiryTime := JVal.num 2 }]
         published := [{ type := "NEW_TRADE", trade := some objectFieldsTrade }]
         sent := [] },
       { status := 201
         body := ResBody.messageTrade "Trade placed successfully" objectFieldsTrade }) := by
  decide

/-! ## Order of the events of one trade -/

theorem mem_newTradeIds {l : List Event} {i : Nat} (h : i ∈ newTradeIds l) :
    ∃ t : TradeDoc, ({ type := "NEW_TRADE", trade := some t } : Event) ∈ l ∧ t._id = i := by
  unfold newTradeIds at h
  obtain ⟨e, he, hf⟩ := List.mem_filterMap.1 h
  by_cases hty : e.type = "NEW_TRADE"
  · simp only [hty, if_true] at hf
    cases htr : e.trade with
    | none => rw [htr] at hf; cases hf
    | some t =>
      rw [htr] at hf
      simp only [Option.map, Option.some.injEq] at hf
      refine ⟨t, ?_, hf⟩
      have : e = { type := "NEW_TRADE", trade := some t } := by
        cases e; simp_all
      rw [← this]; exact he
  · simp [hty] at hf

theorem notNewAfterCompleted_order {α : Type} (f : α → Event) (l : List α)
    (hp : l.Pairwise (fun p q => NotNewAfterCompleted (f p) (f q)))
    (i j : Nat) (a b : α) (t0 t : TradeDoc)
    (hi : l.get? i = some a) (hj : l.get? j = some b)
    (ha : f a = { type := "NEW_TRADE", trade := some t0 })
    (hb : f b = { type := "TRADE_COMPLETED", trade := some t })
    (hid : t0._id = t._id) : i < j := by
  rw [List.get?_eq_getElem?] at hi hj
  obtain ⟨hil, hia⟩ := List.getElem?_eq_some.1 hi
  obtain ⟨hjl, hjb⟩ := List.getElem?_eq_some.1 hj
  rcases Nat.lt_trichotomy i j with h | h | h
  · exact h
  · exfalso
    subst h
    rw [hia] at hjb
    subst hjb
    rw [ha] at hb
    simp at hb
  · exfalso
    have := List.pairwise_iff_getElem.1 hp j i hjl hil h
    rw [hia, hjb, ha, hb] at this
    exact this t._id (by simp [completedIds]) (by simp [newTradeIds, hid])

theorem step_extends_histories (cv : JsConv) (s : State) (a : Action) :
    ∃ (p : List Event) (q : List (Client × Event)),
      (step cv s a).published = s.published ++ p ∧ (step cv s a).sent = s.sent ++ q := by
  cases a with
  | post body newId now dbOk clients =>
    simp only [step]
    rcases postTradesNew_cases cv s body newId now dbOk clients with h | ⟨x, _, _, _, _, _, _, h⟩
    · rw [h]; exact ⟨[], [], by simp, by simp⟩
    · rw [h]; exact ⟨_, _, rfl, broadcast_eq _ _ _⟩
  | fire k random now dbOk clients =>
    simp only [step]
    rcases fireTimer_cases s k random now dbOk clients with h | ⟨tm, _, h⟩ | ⟨tm, u, _, _, _, _, h⟩
    · rw [h]; exact ⟨[], [], by simp, by simp⟩
    · rw [h]; exact ⟨[], [], by simp, by simp⟩
    · rw [h]; exact ⟨_, _, rfl, broadcast_eq _ _ _⟩

/-- C9: in every run of the server from the empty store, each published
TRADE_COMPLETED event is preceded in the publication history by a NEW_TRADE
event for the same trade identifier, every NEW_TRADE event for an identifier
stands strictly before every TRADE_COMPLETED event for it, and in the history
of sends the NEW_TRADE message of a trade stands strictly before its
TRADE_COMPLETED message, so a client that received both received them in that
order. Both histories only ever grow at the end, so an order once observed
stays. -/
theorem new_trade_precedes_completed (cv : JsConv) (actions : List Action) :
    (∀ (j : Nat) (t : TradeDoc),
        (run cv State.init actions).published.get? j
          = some { type := "TRADE_COMPLETED", trade := some t } →
        ∃ (i : Nat) (t0 : TradeDoc), i < j ∧ t0._id = t._id
          ∧ (run cv State.init actions).published.get? i
              = some { type := "NEW_TRADE", trade := some t0 })
    ∧ (∀ (i j : Nat) (t0 t : TradeDoc),
        (run cv State.init actions).published.get? i
          = some { type := "NEW_TRADE", trade := some t0 } →
        (run cv State.init actions).published.get? j
          = some { type := "TRADE_COMPLETED", trade := some t } →
        t0._id = t._id → i < j)
    ∧ (∀ (i j : Nat) (c d : Client) (t0 t : TradeDoc),
        (run cv State.init actions).sent.get? i
          = some (c, { type := "NEW_TRADE", trade := some t0 }) →
        (run cv State.init actions).sent.get? j
          = some (d, { type := "TRADE_COMPLETED", trade := some t }) →
        t0._id = t._id → i < j)
    ∧ (∀ (s : State) (a : Action), ∃ (p : List Event) (q : List (Client × Event)),
        (step cv s a).published = s.published ++ p ∧ (step cv s a).sent = s.sent ++ q) := by
  have hinv := Inv.run cv Inv.init actions
  refine ⟨?_, ?_, ?_, step_extends_histories cv⟩
  · intro j t hj
    have hmem := hinv.new_first j _ hj t._id (by simp [completedIds])
    obtain ⟨t0, ht0, hid⟩ := mem_newTradeIds hmem
    obtain ⟨i, hi, hget⟩ := List.mem_take_iff_getElem.1 ht0
    have hij : i < j := lt_of_lt_of_le hi (Nat.min_le_left _ _)
    have hil : i < (run cv State.init actions).published.length :=
      lt_of_lt_of_le hi (Nat.min_le_right _ _)
    refine ⟨i, t0, hij, hid, ?_⟩
    rw [List.get?_eq_getElem?, List.getElem?_eq_some]
    exact ⟨hil, hget⟩
  · intro i j t0 t hi hj hid
    exact notNewAfterCompleted_order id _ hinv.no_new_after i j _ _ t0 t hi hj rfl rfl hid
  · intro i j c d t0 t hi hj hid
    exact notNewAfterCompleted_order (fun p => p.2) _ hinv.sent_order i j _ _ t0 t hi hj rfl rfl hid

/-- Witness for C9: in `sampleRun` the TRADE_COMPLETED event of trade 1 stands
at position 1 and its NEW_TRADE event before it. -/
theorem new_trade_precedes_completed_witness :
    ∃ (i : Nat) (t0 : TradeDoc), i < 1 ∧ t0._id = (sampleCompleted "won" 5000)._id
      ∧ (run sampleConv State.init sampleRun).published.get? i
          = some { type := "NEW_TRADE", trade := some t0 } :=
  (new_trade_precedes_completed sampleConv sampleRun).1 1 (sampleCompleted "won" 5000)
    (by decide)

/-! ## Outcome and status -/

theorem findById_append_of_some {store : List TradeDoc} {id : Nat} {t : TradeDoc}
    (h : findById store id = some t) (extra : List TradeDoc) :
    findById (store ++ extra) id = some t := by
  unfold findById at h ⊢
  rw [List.find?_append, h]
  rfl

/-- C10: in every state the server reaches from the empty store by creation
requests and resolution firings, a stored trade has a non-null outcome exactly
when its status is completed; and from any state whatever, one more action
leaves a trade that is completed stored under its identifier and completed. -/
theorem outcome_iff_completed_in_runs (cv : JsConv) (actions : List Action) :
    (∀ t ∈ (run cv State.init actions).store, (t.outcome ≠ none ↔ t.status = "completed"))
    ∧ ∀ (s : State) (a : Action) (id : Nat) (t : TradeDoc),
        findById s.store id = some t → t.status = "completed" →
        ∃ later : TradeDoc, findById (step cv s a).store id = some later
          ∧ later.status = "completed" ∧ later.status ≠ "live" := by
  refine ⟨(Inv.run cv Inv.init actions).outcome_iff, ?_⟩
  intro s a id t hfind hst
  have hne : t.status ≠ "live" := by rw [hst]; decide
  cases a with
  | post body newId now dbOk clients =>
    simp only [step]
    rcases postTradesNew_cases cv s body newId now dbOk clients with h | ⟨x, _, _, _, _, _, _, h⟩
    · rw [h]; exact ⟨t, hfind, hst, hne⟩
    · rw [h]; exact ⟨t, findById_append_of_some hfind _, hst, hne⟩
  | fire k random now dbOk clients =>
    simp only [step]
    rcases fireTimer_cases s k random now dbOk clients with h | ⟨tm, _, h⟩ | ⟨tm, u, _, hu, _, _, h⟩
    · rw [h]; exact ⟨t, hfind, hst, hne⟩
    · rw [h]; exact ⟨t, hfind, hst, hne⟩
    · rw [h]
      simp only [findById_findByIdAndUpdate]
      by_cases hid : id = tm.tradeId
      · subst hid
        rw [if_pos rfl, hfind]
        refine ⟨applyUpdate t u, rfl, hu, ?_⟩
        show u.status ≠ "live"
        rw [hu]; decide
      · rw [if_neg hid]; exact ⟨t, hfind, hst, hne⟩

/-- Witness for C10: after `sampleRun` the stored trade is completed and has an
outcome. -/
theorem outcome_iff_completed_in_runs_witness :
    (sampleCompleted "won" 5000).outcome ≠ none
      ↔ (sampleCompleted "won" 5000).status = "completed" :=
  (outcome_iff_completed_in_runs sampleConv sampleRun).1 (sampleCompleted "won" 5000)
    (by decide)

end TradeApi
